import Mathlib

/-!
Shallow embedding of the `libdns/acmeproxy` provider (`provider.go`).

The provider translates batch record operations into one HTTP POST per
record against `<endpoint>/<action>`, validates the echoed JSON response
against the request, and accumulates completed records, stopping at the
first failure.

The HTTP transport is modelled as an oracle function from requests to an
optional response (`none` models a transport-level failure).  Every
operation additionally returns the list of HTTP requests it sent, so that
"no network call is made" claims are statable.
-/

namespace Acmeproxy

/-- A DNS record as seen by the provider (`libdns.Record`).  The Go field
`Type` is called `rtype` here because `Type` is reserved in Lean; `TTL`
(a Go `time.Duration`, an integer count of nanoseconds) is an `Int`. -/
structure Record where
  ID : String
  rtype : String
  Name : String
  Value : String
  TTL : Int
  deriving DecidableEq, Repr

/-- The wire message (Go struct `acmeProxy`), used both as the outbound
request body and as the expected shape of the response body. -/
structure acmeProxy where
  FQDN : String
  Value : String
  deriving DecidableEq, Repr

/-- The provider configuration (Go struct `Provider`, with the embedded
`Credentials`).  The HTTP client is passed separately as a function. -/
structure Provider where
  Username : String
  Password : String
  Endpoint : String
  deriving DecidableEq, Repr

/-- An HTTP response as far as the provider inspects it: the status code
and the decoded body.  `body = none` models a body on which JSON decoding
into `acmeProxy` fails. -/
structure HTTPResponse where
  statusCode : Nat
  body : Option acmeProxy
  deriving DecidableEq, Repr

/-- An outbound HTTP request as far as the provider builds it: method,
target URL, the two headers it sets, the optional basic-auth credentials,
and the JSON-encoded body. -/
structure HTTPRequest where
  method : String
  url : String
  accept : String
  contentType : String
  basicAuth : Option (String × String)
  body : acmeProxy
  deriving DecidableEq, Repr

/-- The injectable HTTP transport (Go interface `HTTPClient`): one
`Do(request)` capability; `none` models a network-level error. -/
abbrev HTTPClient := HTTPRequest → Option HTTPResponse

/-- Modelled from the spec: the `libdns.AbsoluteName(name, zone)` helper
(not part of this repository) that resolves the record name against the
zone into a fully qualified domain name, appending the zone and
normalizing trailing-dot conventions. -/
def AbsoluteName (name zone : String) : String :=
  if name = "" ∨ name = "@" then zone
  else if name.data.getLast? = some '.' then name
  else name ++ "." ++ zone

/-- Split a character list at its first colon, if any. -/
def splitAtColon : List Char → Option (List Char × List Char)
  | [] => none
  | c :: rest =>
    if c = ':' then some ([], rest)
    else
      match splitAtColon rest with
      | none => none
      | some (a, b) => some (c :: a, b)

/-- Modelled from the spec: the standard-library URI parser
(`url.ParseRequestURI`, not part of this repository) used on the
configured endpoint.  It rejects the empty string and malformed input,
accepting an absolute URI (a nonempty scheme before `://`) or an
absolute path; on success the parsed base URI is returned. -/
def parseRequestURI (s : String) : Option String :=
  if s = "" then none
  else if s.data.head? = some '/' then some s
  else
    match splitAtColon s.data with
    | some (scheme, '/' :: '/' :: _) => if scheme = [] then none else some s
    | _ => none

/-- Modelled from the spec: `URL.JoinPath` (not part of this repository),
appending the action as a path segment to the base endpoint URI. -/
def joinPath (u action : String) : String :=
  if u.data.getLast? = some '/' then u ++ action else u ++ "/" ++ action

/-- The per-record failure cases of `doAction`, in source order.  Go wraps
each as a distinct formatted error; a `some` of any of these models a
non-nil Go error. -/
inductive ActionError where
  | unsupportedType
  | transportError
  | badStatus (code : Nat)
  | decodeError
  | fqdnMismatch (got : String)
  | valueMismatch (got : String)
  deriving DecidableEq, Repr

/-- The request `doAction` builds for a record: a POST to the endpoint
with `Accept` and `Content-Type` set to `application/json`, basic-auth
credentials attached when either username or password is nonempty, and
body `{FQDN: AbsoluteName(record.Name, zone), Value: record.Value}`. -/
def buildRequest (p : Provider) (endpoint zone : String) (record : Record) : HTTPRequest :=
  { method := "POST"
    url := endpoint
    accept := "application/json"
    contentType := "application/json"
    basicAuth :=
      if p.Username ≠ "" ∨ p.Password ≠ "" then some (p.Username, p.Password) else none
    body := { FQDN := AbsoluteName record.Name zone, Value := record.Value } }

/-- `Provider.doAction`: process a single record.  Returns the Go pair
`(libdns.Record, error)` as an `Except`, together with the list of HTTP
requests sent.  The Go JSON-encode and request-construction error
branches cannot fire for a struct of two strings and an already-parsed
URL, so they have no counterpart here; every path after the type check
calls `Do` exactly once. -/
def doAction (p : Provider) (client : HTTPClient) (endpoint zone : String)
    (record : Record) : Except ActionError Record × List HTTPRequest :=
  if record.rtype ≠ "TXT" then (Except.error ActionError.unsupportedType, [])
  else
    let req := buildRequest p endpoint zone record
    match client req with
    | none => (Except.error ActionError.transportError, [req])
    | some resp =>
      if resp.statusCode ≠ 200 then (Except.error (ActionError.badStatus resp.statusCode), [req])
      else
        match resp.body with
        | none => (Except.error ActionError.decodeError, [req])
        | some respMsg =>
          if respMsg.FQDN ≠ AbsoluteName record.Name zone then
            (Except.error (ActionError.fqdnMismatch respMsg.FQDN), [req])
          else if respMsg.Value ≠ record.Value then
            (Except.error (ActionError.valueMismatch respMsg.Value), [req])
          else
            (Except.ok { ID := record.ID, rtype := "TXT", Name := record.Name,
                         Value := record.Value, TTL := record.TTL }, [req])

/-- The batch-level failure cases of `doActions`: an invalid configured
endpoint, or a wrapped per-record error naming the action and the failing
record. -/
inductive BatchError where
  | invalidEndpoint (endpoint : String)
  | recordError (action : String) (recordName : String) (e : ActionError)
  deriving DecidableEq, Repr

/-- The record loop of `Provider.doActions`: process the records in
order, stopping at the first failure and returning the records completed
before it alongside the error.  Also returns the concatenated request
trace. -/
def doActionsLoop (p : Provider) (client : HTTPClient) (endpoint action zone : String) :
    List Record → (List Record × Option BatchError) × List HTTPRequest
  | [] => (([], none), [])
  | record :: rest =>
    match doAction p client endpoint zone record with
    | (Except.error e, tr) =>
      (([], some (BatchError.recordError action record.Name e)), tr)
    | (Except.ok cr, tr) =>
      match doActionsLoop p client endpoint action zone rest with
      | ((crs, err), tr2) => ((cr :: crs, err), tr ++ tr2)

/-- `Provider.doActions`: validate the configured endpoint, join the
action onto it as a path segment, then run the record loop.  The first
component models the Go slice `completedRecords` (`none` is a nil slice,
as returned on an invalid endpoint; the loop always starts from the
non-nil empty slice), the second the Go error. -/
def doActions (p : Provider) (client : HTTPClient) (action zone : String)
    (records : List Record) :
    (Option (List Record) × Option BatchError) × List HTTPRequest :=
  match parseRequestURI p.Endpoint with
  | none => ((none, some (BatchError.invalidEndpoint p.Endpoint)), [])
  | some uri =>
    let r := doActionsLoop p client (joinPath uri action) action zone records
    ((some r.1.1, r.1.2), r.2)

/-- `Provider.GetRecords`: listing is unsupported; always a nil slice and
a fixed error, with no network call. -/
def GetRecords (p : Provider) (client : HTTPClient) (zone : String) :
    (Option (List Record) × Option String) × List HTTPRequest :=
  ((none, some "ACMEProxy provider does not support listing records"), [])

/-- `Provider.SetRecords`: the "present" action. -/
def SetRecords (p : Provider) (client : HTTPClient) (zone : String)
    (records : List Record) :
    (Option (List Record) × Option BatchError) × List HTTPRequest :=
  doActions p client "present" zone records

/-- `Provider.AppendRecords`: delegates to `SetRecords`. -/
def AppendRecords (p : Provider) (client : HTTPClient) (zone : String)
    (records : List Record) :
    (Option (List Record) × Option BatchError) × List HTTPRequest :=
  SetRecords p client zone records

/-- `Provider.DeleteRecords`: the "cleanup" action. -/
def DeleteRecords (p : Provider) (client : HTTPClient) (zone : String)
    (records : List Record) :
    (Option (List Record) × Option BatchError) × List HTTPRequest :=
  doActions p client "cleanup" zone records

/-- Whether a per-record result is a success (a nil Go error). -/
def isSuccess : Except ActionError Record → Bool
  | Except.ok _ => true
  | Except.error _ => false

/-- A default record, used only to state indexed properties via `getD`. -/
def dfltRecord : Record :=
  { ID := "", rtype := "", Name := "", Value := "", TTL := 0 }

/-- A transport that echoes the request body with status 200, the
success behaviour the proxy protocol expects. -/
def echoClient : HTTPClient :=
  fun req => some { statusCode := 200, body := some req.body }

/-- A transport on which every request fails at the network level. -/
def noClient : HTTPClient := fun _ => none

/-- The record carried by a successful per-record result (`dfltRecord`
on a failure; used only to state properties of successful results). -/
def okValue : Except ActionError Record → Record
  | Except.ok r => r
  | Except.error _ => dfltRecord

/-- Characterization of a successful `doAction` call: it succeeds exactly
when the record is a TXT record and the transport answers status 200 with
a body echoing the FQDN and Value that were sent, and the returned record
then carries the original ID, Name, Value and TTL with type TXT. -/
theorem doAction_ok_iff (p : Provider) (client : HTTPClient) (endpoint zone : String)
    (record : Record) (cr : Record) :
    (doAction p client endpoint zone record).1 = Except.ok cr ↔
      record.rtype = "TXT" ∧
      client (buildRequest p endpoint zone record) =
        some { statusCode := 200,
               body := some { FQDN := AbsoluteName record.Name zone,
                              Value := record.Value } } ∧
      cr = { ID := record.ID, rtype := "TXT", Name := record.Name,
             Value := record.Value, TTL := record.TTL } := by
  by_cases ht : record.rtype = "TXT"
  case neg => simp [doAction, ht]
  rcases hc : client (buildRequest p endpoint zone record) with _ | ⟨code, body⟩
  · simp [doAction, ht, hc]
  by_cases hs : code = 200
  case neg => simp [doAction, ht, hc, hs]
  subst hs
  rcases body with _ | ⟨fq, v⟩
  · simp [doAction, ht, hc]
  by_cases hf : fq = AbsoluteName record.Name zone
  case neg => simp [doAction, ht, hc, hf]
  by_cases hv : v = record.Value
  case neg => simp [doAction, ht, hc, hf, hv]
  subst hf; subst hv
  simp [doAction, ht, hc, eq_comm]

/-- C6: for every provider configuration, transport and zone,
`GetRecords` returns a nil record list and a non-nil fixed error, and
performs no network call. -/
theorem getRecords_always_fails (p : Provider) (client : HTTPClient) (zone : String) :
    GetRecords p client zone =
      ((none, some "ACMEProxy provider does not support listing records"), []) := rfl

/-- C3: a record whose type is not exactly "TXT" is rejected by
`doAction` with an error before any serialization or HTTP call: the
request trace is empty. -/
theorem nonTxt_rejected (p : Provider) (client : HTTPClient) (endpoint zone : String)
    (record : Record) (h : record.rtype ≠ "TXT") :
    doAction p client endpoint zone record =
      (Except.error ActionError.unsupportedType, []) := by
  simp [doAction, h]

/-- Witness for C3: a record of type "A" is rejected with no request sent. -/
theorem nonTxt_rejected_witness :
    doAction { Username := "", Password := "", Endpoint := "http://proxy" } echoClient
        "http://proxy/present" "example.com."
        { ID := "1", rtype := "A", Name := "x", Value := "v", TTL := 0 } =
      (Except.error ActionError.unsupportedType, []) :=
  nonTxt_rejected _ _ _ _ _ (by decide)

/-- C4: whenever `doAction` succeeds, the returned record has the ID,
Name, Value and TTL of the input record and its type is exactly "TXT". -/
theorem success_preserves_fields (p : Provider) (client : HTTPClient)
    (endpoint zone : String) (record cr : Record)
    (h : (doAction p client endpoint zone record).1 = Except.ok cr) :
    cr.ID = record.ID ∧ cr.Name = record.Name ∧ cr.Value = record.Value ∧
      cr.TTL = record.TTL ∧ cr.rtype = "TXT" := by
  rcases (doAction_ok_iff p client endpoint zone record cr).1 h with ⟨-, -, hcr⟩
  subst hcr
  exact ⟨rfl, rfl, rfl, rfl, rfl⟩

/-- Witness for C4: a successful echoed call returns the input fields
with type "TXT". -/
theorem success_preserves_fields_witness :
    let record : Record := { ID := "7", rtype := "TXT", Name := "x", Value := "v", TTL := 300 }
    let cr : Record := { ID := "7", rtype := "TXT", Name := "x", Value := "v", TTL := 300 }
    cr.ID = record.ID ∧ cr.Name = record.Name ∧ cr.Value = record.Value ∧
      cr.TTL = record.TTL ∧ cr.rtype = "TXT" :=
  success_preserves_fields
    { Username := "", Password := "", Endpoint := "http://proxy" } echoClient
    "http://proxy/present" "example.com."
    { ID := "7", rtype := "TXT", Name := "x", Value := "v", TTL := 300 }
    { ID := "7", rtype := "TXT", Name := "x", Value := "v", TTL := 300 } (by rfl)

/-- C2: a `doAction` call that reaches response validation (the record
is TXT and the transport answered status 200 with a decodable body)
succeeds if and only if the echoed FQDN equals
`AbsoluteName record.Name zone` and the echoed Value equals the record
Value; any deviation in either field fails the call. -/
theorem roundtrip_validation (p : Provider) (client : HTTPClient)
    (endpoint zone : String) (record : Record) (respMsg : acmeProxy)
    (ht : record.rtype = "TXT")
    (hresp : client (buildRequest p endpoint zone record) =
      some { statusCode := 200, body := some respMsg }) :
    isSuccess (doAction p client endpoint zone record).1 = true ↔
      (respMsg.FQDN = AbsoluteName record.Name zone ∧
        respMsg.Value = record.Value) := by
  rcases respMsg with ⟨fq, v⟩
  by_cases hf : fq = AbsoluteName record.Name zone
  · by_cases hv : v = record.Value
    · subst hf; subst hv
      simp [doAction, ht, hresp, isSuccess]
    · simp [doAction, ht, hresp, hf, hv, isSuccess]
  · simp [doAction, ht, hresp, hf, isSuccess]

/-- Witness for C2: with an exact echo the call succeeds, degenerating
the equivalence to a true statement at a concrete input. -/
theorem roundtrip_validation_witness :
    isSuccess (doAction { Username := "", Password := "", Endpoint := "http://proxy" }
        (fun _ => some { statusCode := 200,
                         body := some { FQDN := "x.example.com.", Value := "v" } })
        "http://proxy/present" "example.com."
        { ID := "7", rtype := "TXT", Name := "x", Value := "v", TTL := 300 }).1 = true ↔
      ("x.example.com." = AbsoluteName "x" "example.com." ∧ "v" = "v") :=
  roundtrip_validation
    { Username := "", Password := "", Endpoint := "http://proxy" }
    (fun _ => some { statusCode := 200,
                     body := some { FQDN := "x.example.com.", Value := "v" } })
    "http://proxy/present" "example.com."
    { ID := "7", rtype := "TXT", Name := "x", Value := "v", TTL := 300 }
    { FQDN := "x.example.com.", Value := "v" } rfl rfl

/-- C5: an endpoint the URI parser rejects makes all three batch entry
points fail with a nil completed list before any HTTP call: the request
trace is empty. -/
theorem invalid_endpoint_fails_fast (p : Provider) (client : HTTPClient)
    (zone : String) (records : List Record)
    (h : parseRequestURI p.Endpoint = none) :
    SetRecords p client zone records =
      ((none, some (BatchError.invalidEndpoint p.Endpoint)), []) ∧
    AppendRecords p client zone records =
      ((none, some (BatchError.invalidEndpoint p.Endpoint)), []) ∧
    DeleteRecords p client zone records =
      ((none, some (BatchError.invalidEndpoint p.Endpoint)), []) := by
  refine ⟨?_, ?_, ?_⟩ <;>
    simp [SetRecords, AppendRecords, DeleteRecords, doActions, h]

/-- Witness for C5: the empty endpoint string fails fast on a nonempty
batch with no request sent. -/
theorem invalid_endpoint_fails_fast_witness :
    SetRecords { Username := "", Password := "", Endpoint := "" } echoClient
        "example.com." [{ ID := "1", rtype := "TXT", Name := "x", Value := "v", TTL := 0 }] =
      ((none, some (BatchError.invalidEndpoint "")), []) ∧
    AppendRecords { Username := "", Password := "", Endpoint := "" } echoClient
        "example.com." [{ ID := "1", rtype := "TXT", Name := "x", Value := "v", TTL := 0 }] =
      ((none, some (BatchError.invalidEndpoint "")), []) ∧
    DeleteRecords { Username := "", Password := "", Endpoint := "" } echoClient
        "example.com." [{ ID := "1", rtype := "TXT", Name := "x", Value := "v", TTL := 0 }] =
      ((none, some (BatchError.invalidEndpoint "")), []) :=
  invalid_endpoint_fails_fast _ _ _ _ (by rfl)

/-- C9: the empty batch with a valid endpoint succeeds on all three batch
entry points, returning the non-nil empty completed list, no error and no
HTTP request. -/
theorem empty_batch_succeeds (p : Provider) (client : HTTPClient)
    (zone uri : String) (h : parseRequestURI p.Endpoint = some uri) :
    SetRecords p client zone [] = ((some [], none), []) ∧
    AppendRecords p client zone [] = ((some [], none), []) ∧
    DeleteRecords p client zone [] = ((some [], none), []) := by
  refine ⟨?_, ?_, ?_⟩ <;>
    simp [SetRecords, AppendRecords, DeleteRecords, doActions, doActionsLoop, h]

/-- Witness for C9: a concrete valid endpoint and the empty batch. -/
theorem empty_batch_succeeds_witness :
    SetRecords { Username := "", Password := "", Endpoint := "http://proxy" } echoClient
        "example.com." [] = ((some [], none), []) ∧
    AppendRecords { Username := "", Password := "", Endpoint := "http://proxy" } echoClient
        "example.com." [] = ((some [], none), []) ∧
    DeleteRecords { Username := "", Password := "", Endpoint := "http://proxy" } echoClient
        "example.com." [] = ((some [], none), []) :=
  empty_batch_succeeds _ _ _ "http://proxy" (by rfl)

/-- Every request `doAction` sends is the one `buildRequest` builds for
the record being processed. -/
theorem doAction_trace_shape (p : Provider) (client : HTTPClient)
    (endpoint zone : String) (record : Record) (req : HTTPRequest)
    (h : req ∈ (doAction p client endpoint zone record).2) :
    req = buildRequest p endpoint zone record := by
  unfold doAction at h
  split at h
  · simp at h
  · dsimp only at h
    split at h <;> try simp_all
    split at h <;> try simp_all
    split at h <;> try simp_all
    split at h <;> try simp_all
    split at h <;> simp_all

/-- Every request the record loop sends is the built request of one of
the records of the batch. -/
theorem doActionsLoop_trace_shape (p : Provider) (client : HTTPClient)
    (endpoint action zone : String) (records : List Record) (req : HTTPRequest)
    (h : req ∈ (doActionsLoop p client endpoint action zone records).2) :
    ∃ r ∈ records, req = buildRequest p endpoint zone r := by
  induction records with
  | nil => simp [doActionsLoop] at h
  | cons record rest ih =>
    rw [doActionsLoop] at h
    split at h
    case _ e tr heq =>
      refine ⟨record, by simp, ?_⟩
      apply doAction_trace_shape p client endpoint zone record
      rw [heq]
      exact h
    case _ cr tr heq =>
      split at h
      case _ crs err tr2 heq2 =>
        simp only [List.mem_append] at h
        rcases h with h | h
        · refine ⟨record, by simp, ?_⟩
          apply doAction_trace_shape p client endpoint zone record
          rw [heq]
          exact h
        · rcases ih (by rw [heq2]; exact h) with ⟨r, hr, hreq⟩
          exact ⟨r, by simp [hr], hreq⟩

/-- Every request `doActions` sends is the built request of one of the
records of the batch, targeted at the action joined onto the parsed
endpoint. -/
theorem doActions_trace_shape (p : Provider) (client : HTTPClient)
    (action zone : String) (records : List Record) (req : HTTPRequest)
    (h : req ∈ (doActions p client action zone records).2) :
    ∃ uri, parseRequestURI p.Endpoint = some uri ∧
      ∃ r ∈ records, req = buildRequest p (joinPath uri action) zone r := by
  unfold doActions at h
  split at h
  · simp at h
  case _ uri heq =>
    exact ⟨uri, heq, doActionsLoop_trace_shape p client _ action zone records req h⟩

/-- C8: every outbound request carries basic-auth credentials exactly
when username or password is nonempty (and then exactly those
credentials), carries the two JSON headers, and has as body the absolute
name of some batch record together with its value. -/
theorem request_shape (p : Provider) (client : HTTPClient) (action zone : String)
    (records : List Record) (req : HTTPRequest)
    (h : req ∈ (doActions p client action zone records).2) :
    (req.basicAuth.isSome = true ↔ (p.Username ≠ "" ∨ p.Password ≠ "")) ∧
    (req.basicAuth.isSome = true → req.basicAuth = some (p.Username, p.Password)) ∧
    req.accept = "application/json" ∧
    req.contentType = "application/json" ∧
    ∃ r ∈ records, req.body =
      { FQDN := AbsoluteName r.Name zone, Value := r.Value } := by
  rcases doActions_trace_shape p client action zone records req h with
    ⟨uri, -, r, hr, hreq⟩
  subst hreq
  refine ⟨?_, ?_, rfl, rfl, ⟨r, hr, rfl⟩⟩
  · by_cases hcred : p.Username ≠ "" ∨ p.Password ≠ "" <;> simp [buildRequest, hcred]
  · by_cases hcred : p.Username ≠ "" ∨ p.Password ≠ "" <;> simp [buildRequest, hcred]

/-- Witness for C8: a concrete batch of one record with a nonempty
username; the one request sent has the stated shape. -/
theorem request_shape_witness :
    let req : HTTPRequest :=
      { method := "POST", url := "http://proxy/present",
        accept := "application/json", contentType := "application/json",
        basicAuth := some ("u", ""),
        body := { FQDN := "a.example.com.", Value := "v1" } }
    (req.basicAuth.isSome = true ↔ (("u" : String) ≠ "" ∨ ("" : String) ≠ "")) ∧
    (req.basicAuth.isSome = true → req.basicAuth = some ("u", "")) ∧
    req.accept = "application/json" ∧
    req.contentType = "application/json" ∧
    ∃ r ∈ [({ ID := "1", rtype := "TXT", Name := "a", Value := "v1", TTL := 0 } : Record)],
      req.body = { FQDN := AbsoluteName r.Name "example.com.", Value := r.Value } :=
  request_shape { Username := "u", Password := "", Endpoint := "http://proxy" }
    echoClient "present" "example.com."
    [{ ID := "1", rtype := "TXT", Name := "a", Value := "v1", TTL := 0 }]
    { method := "POST", url := "http://proxy/present",
      accept := "application/json", contentType := "application/json",
      basicAuth := some ("u", ""),
      body := { FQDN := "a.example.com.", Value := "v1" } }
    (by decide)

/-- C7: `AppendRecords` coincides with `SetRecords`; both perform the
"present" action and `DeleteRecords` the "cleanup" action, each appended
as a path segment to the parsed endpoint, as witnessed by the URL of
every request sent. -/
theorem action_mapping (p : Provider) (client : HTTPClient) (zone uri : String)
    (records : List Record) (h : parseRequestURI p.Endpoint = some uri) :
    AppendRecords p client zone records = SetRecords p client zone records ∧
    SetRecords p client zone records = doActions p client "present" zone records ∧
    DeleteRecords p client zone records = doActions p client "cleanup" zone records ∧
    (∀ req ∈ (SetRecords p client zone records).2, req.url = joinPath uri "present") ∧
    (∀ req ∈ (DeleteRecords p client zone records).2, req.url = joinPath uri "cleanup") := by
  refine ⟨rfl, rfl, rfl, ?_, ?_⟩ <;> intro req hreq
  · rcases doActions_trace_shape p client "present" zone records req hreq with
      ⟨uri2, huri2, r, -, hr⟩
    rw [h] at huri2
    injection huri2 with h2
    subst h2; subst hr; rfl
  · rcases doActions_trace_shape p client "cleanup" zone records req hreq with
      ⟨uri2, huri2, r, -, hr⟩
    rw [h] at huri2
    injection huri2 with h2
    subst h2; subst hr; rfl

/-- Witness for C7: a concrete provider with a valid endpoint and a
one-record batch. -/
theorem action_mapping_witness :
    let p : Provider := { Username := "", Password := "", Endpoint := "http://proxy" }
    let records : List Record := [{ ID := "1", rtype := "TXT", Name := "a", Value := "v1", TTL := 0 }]
    AppendRecords p echoClient "example.com." records =
      SetRecords p echoClient "example.com." records ∧
    SetRecords p echoClient "example.com." records =
      doActions p echoClient "present" "example.com." records ∧
    DeleteRecords p echoClient "example.com." records =
      doActions p echoClient "cleanup" "example.com." records ∧
    (∀ req ∈ (SetRecords p echoClient "example.com." records).2,
      req.url = joinPath "http://proxy" "present") ∧
    (∀ req ∈ (DeleteRecords p echoClient "example.com." records).2,
      req.url = joinPath "http://proxy" "cleanup") :=
  action_mapping { Username := "", Password := "", Endpoint := "http://proxy" }
    echoClient "example.com." "http://proxy"
    [{ ID := "1", rtype := "TXT", Name := "a", Value := "v1", TTL := 0 }]
    (by rfl)

/-- The record loop on a batch whose first failure is `bad`: it returns
exactly the successful results of the records before `bad`, a wrapped
error naming `bad`, and a trace containing only the requests of the
records up to and including `bad`. -/
theorem doActionsLoop_first_failure (p : Provider) (client : HTTPClient)
    (endpoint action zone : String) (bad : Record) (pre post : List Record)
    (hpre : ∀ r ∈ pre, isSuccess (doAction p client endpoint zone r).1 = true)
    (hbad : isSuccess (doAction p client endpoint zone bad).1 = false) :
    ∃ e : ActionError,
      doActionsLoop p client endpoint action zone (pre ++ bad :: post) =
        ((pre.map (fun r => okValue (doAction p client endpoint zone r).1),
          some (BatchError.recordError action bad.Name e)),
         (pre.map (fun r => (doAction p client endpoint zone r).2)).flatten ++
           (doAction p client endpoint zone bad).2) := by
  induction pre with
  | nil =>
    rcases hda : doAction p client endpoint zone bad with ⟨res1, tr⟩
    rcases res1 with e | cr
    · exact ⟨e, by simp [doActionsLoop, hda]⟩
    · rw [hda] at hbad
      simp [isSuccess] at hbad
  | cons r pre ih =>
    have hr := hpre r (by simp)
    rcases hda : doAction p client endpoint zone r with ⟨res1, tr⟩
    rcases res1 with e | cr
    · rw [hda] at hr
      simp [isSuccess] at hr
    · rcases ih (fun r2 hr2 => hpre r2 (by simp [hr2])) with ⟨e, hloop⟩
      refine ⟨e, ?_⟩
      rw [List.cons_append, doActionsLoop, hda, hloop]
      simp [hda, okValue]

/-- C1: in a batch whose records before `bad` all succeed and where `bad`
fails (record `k` with `k - 1 = pre.length`), every batch call returns
exactly the `k - 1` completed records together with a non-nil error, and
the request trace holds only the requests of records up to `bad`: nothing
after the failure is processed or sent. -/
theorem batch_first_failure (p : Provider) (client : HTTPClient)
    (action zone uri : String) (bad : Record) (pre post : List Record)
    (huri : parseRequestURI p.Endpoint = some uri)
    (hpre : ∀ r ∈ pre, isSuccess (doAction p client (joinPath uri action) zone r).1 = true)
    (hbad : isSuccess (doAction p client (joinPath uri action) zone bad).1 = false) :
    ∃ crs err,
      doActions p client action zone (pre ++ bad :: post) =
        ((some crs, some err),
         (pre.map (fun r => (doAction p client (joinPath uri action) zone r).2)).flatten ++
           (doAction p client (joinPath uri action) zone bad).2) ∧
      crs.length = pre.length := by
  rcases doActionsLoop_first_failure p client (joinPath uri action) action zone bad
      pre post hpre hbad with ⟨e, hloop⟩
  exact ⟨pre.map (fun r => okValue (doAction p client (joinPath uri action) zone r).1),
    BatchError.recordError action bad.Name e,
    by simp [doActions, huri, hloop], by simp⟩

/-- Witness for C1: a three-record batch whose second record is not TXT;
one completed record, an error, and a trace of exactly two requests. -/
theorem batch_first_failure_witness :
    ∃ crs err,
      doActions { Username := "", Password := "", Endpoint := "http://proxy" } echoClient
          "present" "example.com."
          ([{ ID := "1", rtype := "TXT", Name := "a", Value := "v1", TTL := 0 }] ++
            { ID := "2", rtype := "A", Name := "b", Value := "v2", TTL := 0 } ::
            [{ ID := "3", rtype := "TXT", Name := "c", Value := "v3", TTL := 0 }]) =
        ((some crs, some err),
         ([({ ID := "1", rtype := "TXT", Name := "a", Value := "v1", TTL := 0 } : Record)].map
            (fun r => (doAction { Username := "", Password := "", Endpoint := "http://proxy" }
              echoClient (joinPath "http://proxy" "present") "example.com." r).2)).flatten ++
           (doAction { Username := "", Password := "", Endpoint := "http://proxy" }
              echoClient (joinPath "http://proxy" "present") "example.com."
              { ID := "2", rtype := "A", Name := "b", Value := "v2", TTL := 0 }).2) ∧
      crs.length = [({ ID := "1", rtype := "TXT", Name := "a", Value := "v1", TTL := 0 } : Record)].length :=
  batch_first_failure { Username := "", Password := "", Endpoint := "http://proxy" }
    echoClient "present" "example.com." "http://proxy"
    { ID := "2", rtype := "A", Name := "b", Value := "v2", TTL := 0 }
    [{ ID := "1", rtype := "TXT", Name := "a", Value := "v1", TTL := 0 }]
    [{ ID := "3", rtype := "TXT", Name := "c", Value := "v3", TTL := 0 }]
    (by rfl) (by decide) (by decide)

/-- The record loop returns at most one completed record per input
record, each completed record is the successful result of the input
record at the same position, and a `none` error means every record
completed. -/
theorem doActionsLoop_spec (p : Provider) (client : HTTPClient)
    (endpoint action zone : String) (records : List Record) :
    (doActionsLoop p client endpoint action zone records).1.1.length ≤ records.length ∧
    (∀ i, i < (doActionsLoop p client endpoint action zone records).1.1.length →
      (doAction p client endpoint zone (records.getD i dfltRecord)).1 =
        Except.ok ((doActionsLoop p client endpoint action zone records).1.1.getD i dfltRecord)) ∧
    ((doActionsLoop p client endpoint action zone records).1.2 = none →
      (doActionsLoop p client endpoint action zone records).1.1.length = records.length) := by
  induction records with
  | nil => simp [doActionsLoop]
  | cons record rest ih =>
    rw [doActionsLoop]
    rcases hda : doAction p client endpoint zone record with ⟨res1, tr⟩
    rcases res1 with e | cr
    · simp
    · rcases hloop : doActionsLoop p client endpoint action zone rest with ⟨⟨crs, err⟩, tr2⟩
      rw [hloop] at ih
      simp only at ih
      rcases ih with ⟨ih1, ih2, ih3⟩
      refine ⟨by simpa using ih1, ?_, by simpa using ih3⟩
      intro i hi
      cases i with
      | zero =>
        simpa using congrArg Prod.fst hda
      | succ j =>
        simp only [List.getD_cons_succ]
        exact ih2 j (by simpa using hi)

/-- C10: the completed list of every batch call is the in-order
transformation of a prefix of the input: on an invalid endpoint it is nil
with an error, and otherwise each completed record at position `i` is the
successful `doAction` result of the input record at position `i`, with the
whole input completed whenever no error is returned. -/
theorem completed_is_processed_initial_segment (p : Provider) (client : HTTPClient)
    (action zone : String) (records : List Record) :
    ((doActions p client action zone records).1.1 = none ∧
      (doActions p client action zone records).1.2.isSome = true) ∨
    ∃ uri crs, parseRequestURI p.Endpoint = some uri ∧
      (doActions p client action zone records).1.1 = some crs ∧
      crs.length ≤ records.length ∧
      (∀ i, i < crs.length →
        (doAction p client (joinPath uri action) zone (records.getD i dfltRecord)).1 =
          Except.ok (crs.getD i dfltRecord)) ∧
      ((doActions p client action zone records).1.2 = none →
        crs.length = records.length) := by
  rcases huri : parseRequestURI p.Endpoint with _ | uri
  · left
    simp [doActions, huri]
  · right
    rcases doActionsLoop_spec p client (joinPath uri action) action zone records with
      ⟨h1, h2, h3⟩
    exact ⟨uri, (doActionsLoop p client (joinPath uri action) action zone records).1.1,
      rfl, by simp [doActions, huri], h1, h2, by simpa [doActions, huri] using h3⟩

end Acmeproxy
